import Mathlib

/-!
Shallow embedding of the `company-house` ingestion pipeline
(`src/normalize.py`, `src/schema.py`, `src/ch_requests.py`, `src/bq_writer.py`,
`src/producer.py`, `src/subscriber.py`) together with proofs about the
behaviour its specification describes.

External collaborators (the BigQuery client, the Pub/Sub channel, the HTTP
library, `hashlib`, `dateutil`, `json`) are not part of the repository: calls
into them are modelled either by explicit oracles (response scripts, per-batch
write outcomes) or by deterministic stand-in functions, documented at each
definition.  Everything else is translated line-by-line from the Python
source.
-/

namespace CompanyHouse

/-- Python/JSON values as they occur in Companies House payloads:
`None`, strings, integers, booleans, arrays and objects.  Objects are
ordered association lists, mirroring the insertion-ordered Python `dict`. -/
inductive JVal where
  | jnull
  | jstr (s : String)
  | jnum (n : Int)
  | jbool (b : Bool)
  | jarr (xs : List JVal)
  | jobj (fields : List (String × JVal))

/-- Python truthiness (`if not raw: ...`) for the values of `JVal`:
`None`, `""`, `0`, `False`, `[]` and `{}` are falsy. -/
def pyFalsy : JVal → Bool
  | .jnull => true
  | .jstr s => s = ""
  | .jnum n => n = 0
  | .jbool b => !b
  | .jarr xs => xs.isEmpty
  | .jobj fs => fs.isEmpty

mutual

/-- Python `str(x)` on a `JVal`.  For scalars this matches CPython; for
containers it is a deterministic stand-in for the `repr`-style rendering
(the proofs use only that it is a function of its argument). -/
def pyStr : JVal → String
  | .jnull => "None"
  | .jstr s => s
  | .jnum n => toString n
  | .jbool b => if b then "True" else "False"
  | .jarr xs => "[" ++ pyStrList xs ++ "]"
  | .jobj fs => "\x7b" ++ pyStrFields fs ++ "\x7d"

def pyStrList : List JVal → String
  | [] => ""
  | [x] => pyStr x
  | x :: y :: xs => pyStr x ++ ", " ++ pyStrList (y :: xs)

def pyStrFields : List (String × JVal) → String
  | [] => ""
  | [(k, v)] => k ++ ": " ++ pyStr v
  | (k, v) :: f :: fs => k ++ ": " ++ pyStr v ++ ", " ++ pyStrFields (f :: fs)

end

mutual

/-- Stand-in for `json.dumps(value, ensure_ascii=False)` (external `json`
library): a deterministic compact JSON rendering.  String escaping is
omitted; the proofs use only that the rendering is a function. -/
def json_dumps : JVal → String
  | .jnull => "null"
  | .jstr s => "\x22" ++ s ++ "\x22"
  | .jnum n => toString n
  | .jbool b => if b then "true" else "false"
  | .jarr xs => "[" ++ jsonDumpsList xs ++ "]"
  | .jobj fs => "\x7b" ++ jsonDumpsFields fs ++ "\x7d"

def jsonDumpsList : List JVal → String
  | [] => ""
  | [x] => json_dumps x
  | x :: y :: xs => json_dumps x ++ "," ++ jsonDumpsList (y :: xs)

def jsonDumpsFields : List (String × JVal) → String
  | [] => ""
  | [(k, v)] => "\x22" ++ k ++ "\x22:" ++ json_dumps v
  | (k, v) :: f :: fs => "\x22" ++ k ++ "\x22:" ++ json_dumps v ++ "," ++ jsonDumpsFields (f :: fs)

end

/-- Python `s.strip()` (whitespace trim). -/
def strStrip (s : String) : String := s.trim

/-- Python `s.lower()`. -/
def strLower (s : String) : String := s.map Char.toLower

/-- Stand-in for `hashlib.sha256(text.encode("utf-8")).hexdigest()`
(external `hashlib` library): modelled as a deterministic function of the
canonical text.  Only functionality (equal texts give equal digests), never
collision resistance, is used in the proofs. -/
def sha256_hexdigest (text : String) : String := "sha256:" ++ text

/-- `normalize.canonicalize_value` (src/normalize.py lines 23-29).
The `JVal.jnull` case models both an absent key (`item.get(k)` returning
`None`) and an explicit `null` value. -/
def canonicalize_value : JVal → String
  | .jnull => ""
  | .jarr xs => String.intercalate "|" (xs.map (fun x => strLower (strStrip (pyStr x))))
  | v => strLower (strStrip (pyStr v))

/-- Ordered-dict lookup with Python `item.get(k)` semantics, absent keys
giving `None` (`JVal.jnull`).  First binding wins; the rows built by
`normalize_record` bind each key once. -/
def dict_get : List (String × JVal) → String → JVal
  | [], _ => .jnull
  | (a, v) :: t, k => if a = k then v else dict_get t k

/-- `normalize.make_signature` (src/normalize.py lines 32-34):
`"||".join(canonicalize_value(item.get(k)) for k in keys)` hashed with
SHA-256. -/
def make_signature (item : List (String × JVal)) (keys : List String) : String :=
  sha256_hexdigest (String.intercalate "||" (keys.map (fun k => canonicalize_value (dict_get item k))))

/-! ### Table configuration (src/schema.py)

Each config carries the normalization map (output field ↦ (source path,
optional parent object)) and the signature-key list.  The BigQuery column
type list of `TABLE_CONFIG` is omitted: no claim refers to it. -/

structure TableCfg where
  normalize_map : List (String × String × Option String)
  signature_keys : List String

/-- `schema.COMPANY_INDEX_SIGNATURE_KEYS` (src/schema.py lines 72-76). -/
def COMPANY_INDEX_SIGNATURE_KEYS : List String :=
  ["company_number", "title", "kind", "company_status", "company_type",
   "snippet", "address_snippet", "address_line_1",
   "address_locality", "address_country", "address_postal_code"]

/-- `schema.COMPANY_DETAILS_SIGNATURE_KEYS` (src/schema.py lines 78-81). -/
def COMPANY_DETAILS_SIGNATURE_KEYS : List String :=
  ["company_number", "company_name", "company_status",
   "date_of_creation", "registered_address_line_1", "registered_address_postal_code"]

/-- `schema.COMPANY_INDEX_NORMALIZE_MAP` (src/schema.py lines 88-104). -/
def COMPANY_INDEX_NORMALIZE_MAP : List (String × String × Option String) :=
  [("company_number", "company_number", none),
   ("title", "title", none),
   ("kind", "kind", none),
   ("company_status", "company_status", none),
   ("company_type", "company_type", none),
   ("snippet", "snippet", none),
   ("address_snippet", "address_snippet", none),
   ("address_line_1", "address_line_1", some "address"),
   ("address_locality", "locality", some "address"),
   ("address_country", "country", some "address"),
   ("address_postal_code", "postal_code", some "address"),
   ("links_self", "self", some "links"),
   ("date_of_creation", "date_of_creation", none),
   ("date_of_cessation", "date_of_cessation", none),
   ("rank", "rank", none)]

/-- `schema.COMPANY_DETAILS_NORMALIZE_MAP` (src/schema.py lines 106-133). -/
def COMPANY_DETAILS_NORMALIZE_MAP : List (String × String × Option String) :=
  [("company_number", "company_number", none),
   ("company_name", "company_name", none),
   ("company_status", "company_status", none),
   ("date_of_creation", "date_of_creation", none),
   ("etag", "etag", none),
   ("has_been_liquidated", "has_been_liquidated", none),
   ("has_charges", "has_charges", none),
   ("has_insolvency_history", "has_insolvency_history", none),
   ("jurisdiction", "jurisdiction", none),
   ("last_full_members_list_date", "last_full_members_list_date", none),
   ("registered_address_line_1", "address_line_1", some "registered_office_address"),
   ("registered_address_line_2", "address_line_2", some "registered_office_address"),
   ("registered_address_locality", "locality", some "registered_office_address"),
   ("registered_address_country", "country", some "registered_office_address"),
   ("registered_address_postal_code", "postal_code", some "registered_office_address"),
   ("sic_codes", "sic_codes", none),
   ("type", "type", none),
   ("registered_office_is_in_dispute", "registered_office_is_in_dispute", none),
   ("undeliverable_registered_office_address", "undeliverable_registered_office_address", none),
   ("has_super_secure_pscs", "has_super_secure_pscs", none),
   ("links_self", "self", some "links"),
   ("links_persons_with_significant_control", "persons_with_significant_control", some "links"),
   ("links_filing_history", "filing_history", some "links"),
   ("links_officers", "officers", some "links"),
   ("accounts_json", "accounts", none),
   ("confirmation_statement_json", "confirmation_statement", none)]

/-- `schema.TABLE_CONFIG` (src/schema.py lines 138-149). -/
def TABLE_CONFIG : List (String × TableCfg) :=
  [("company_index",
    { normalize_map := COMPANY_INDEX_NORMALIZE_MAP,
      signature_keys := COMPANY_INDEX_SIGNATURE_KEYS }),
   ("company_details",
    { normalize_map := COMPANY_DETAILS_NORMALIZE_MAP,
      signature_keys := COMPANY_DETAILS_SIGNATURE_KEYS })]

/-- Signatures are congruent in the signature-key values: two items that
agree (under `item.get`) on every key hashed by `make_signature` produce the
same digest, whatever their other fields hold. -/
theorem make_signature_congr (r1 r2 : List (String × JVal)) (keys : List String)
    (h : ∀ k ∈ keys, dict_get r1 k = dict_get r2 k) :
    make_signature r1 keys = make_signature r2 keys := by
  unfold make_signature
  have : keys.map (fun k => canonicalize_value (dict_get r1 k))
       = keys.map (fun k => canonicalize_value (dict_get r2 k)) :=
    List.map_congr_left (fun k hk => by rw [h k hk])
  rw [this]

/-- C7: for every registered target, two rows (or source records) with equal
values over that target's signature-key subset get equal row signatures,
regardless of differences in any field outside the signature keys (such as
the indexing timestamp or the raw JSON copy). -/
theorem signature_ignores_fields_outside_signature_keys :
    ∀ tname cfg, List.lookup tname TABLE_CONFIG = some cfg →
    ∀ r1 r2 : List (String × JVal),
    (∀ k ∈ cfg.signature_keys, dict_get r1 k = dict_get r2 k) →
    make_signature r1 cfg.signature_keys = make_signature r2 cfg.signature_keys :=
  fun _ _ _ r1 r2 h => make_signature_congr r1 r2 _ h

/-- C7 witness: two concrete `company_index` rows differing only in
`date_indexed` and `raw_json` hash to the same signature. -/
theorem signature_ignores_fields_outside_signature_keys_witness :
    make_signature
      [("company_number", JVal.jstr "00000001"), ("title", JVal.jstr "ACME LTD"),
       ("date_indexed", JVal.jstr "2025-01-01T00:00:00"), ("raw_json", JVal.jstr "raw-a")]
      COMPANY_INDEX_SIGNATURE_KEYS
    = make_signature
      [("company_number", JVal.jstr "00000001"), ("title", JVal.jstr "ACME LTD"),
       ("date_indexed", JVal.jstr "2025-01-02T09:30:00"), ("raw_json", JVal.jstr "raw-b")]
      COMPANY_INDEX_SIGNATURE_KEYS :=
  signature_ignores_fields_outside_signature_keys "company_index" _ rfl _ _ (by
    intro k hk
    fin_cases hk <;> rfl)

/-! ### Canonicalizer (`normalize.normalize_record`, src/normalize.py lines 65-110) -/

/-- Stand-in for `dateutil.parser.parse(raw).date().isoformat()` (external
`dateutil` library): any string parses to its first ten characters as the
ISO date, anything else fails to parse.  Only determinism is used in the
proofs. -/
def dateutil_parse_iso_date : JVal → Option String
  | .jstr s => some (s.take 10)
  | _ => none

/-- `normalize.safe_date_iso` (src/normalize.py lines 12-20): falsy input or
a parse failure gives `None`, never an error. -/
def safe_date_iso (raw : JVal) : JVal :=
  if pyFalsy raw then .jnull
  else
    match dateutil_parse_iso_date raw with
    | some s => .jstr s
    | none => .jnull

/-- `normalize._coerce_for_schema` (src/normalize.py lines 37-62).  The
Python function also receives the (unused) field name; it is dropped here.
Lists join to a semicolon-separated string, dicts become compact JSON,
`None` and scalars pass through. -/
def coerce_for_schema (value : JVal) : JVal :=
  match value with
  | .jnull => .jnull
  | .jarr xs => .jstr (String.intercalate ";" (xs.map pyStr))
  | .jobj fs => .jstr (json_dumps (.jobj fs))
  | v => v

/-- Value resolution in `normalize_record` (src/normalize.py lines 80-87):
with a parent, `raw_item.get(parent) or {}` followed by a dict-instance
check and `parent_obj.get(path)` — so any non-object parent value (falsy or
not) yields `None`; without a parent, `raw_item.get(path)`. -/
def resolve_field (raw_item : List (String × JVal)) (path : String) (parent : Option String) : JVal :=
  match parent with
  | some p =>
    match dict_get raw_item p with
    | .jobj fs => dict_get fs path
    | _ => .jnull
  | none => dict_get raw_item path

/-- `value is not None` (src/normalize.py line 94). -/
def isJNull : JVal → Bool
  | .jnull => true
  | _ => false

/-- Per-field coercion in `normalize_record` (src/normalize.py lines 89-102):
`date_`-prefixed fields are date-parsed, non-`None` `_json`-suffixed fields
are JSON-serialized, everything else goes through `_coerce_for_schema`. -/
def transform_field (field : String) (value : JVal) : JVal :=
  if field.startsWith "date_" then safe_date_iso value
  else if field.endsWith "_json" && !(isJNull value) then .jstr (json_dumps value)
  else coerce_for_schema value

/-- `normalize.normalize_record` (src/normalize.py lines 65-110).  The
wall-clock read `datetime.utcnow().isoformat()` is the explicit `now_iso`
argument; an unregistered table name (Python `ValueError`) is `none`.  The
row signature is computed over the row after `date_indexed` and `raw_json`
are attached, exactly as in the source. -/
def normalize_base (cfg : TableCfg) (raw_item : List (String × JVal)) : List (String × JVal) :=
  cfg.normalize_map.map
    (fun e => (e.1, transform_field e.1 (resolve_field raw_item e.2.1 e.2.2)))

/-- The normalized dict right after the housekeeping assignments of
`date_indexed` and `raw_json` (src/normalize.py lines 107-108): the state
over which `make_signature` is evaluated on line 109. -/
def normalize_housekept (cfg : TableCfg) (raw_item : List (String × JVal)) (now_iso : String) :
    List (String × JVal) :=
  normalize_base cfg raw_item ++
    [("date_indexed", JVal.jstr now_iso),
     ("raw_json", JVal.jstr (json_dumps (.jobj raw_item)))]

def normalize_record (table_name : String) (raw_item : List (String × JVal)) (now_iso : String) :
    Option (List (String × JVal)) :=
  match List.lookup table_name TABLE_CONFIG with
  | none => none
  | some cfg =>
    some (normalize_housekept cfg raw_item now_iso ++
      [("row_signature",
        JVal.jstr (make_signature (normalize_housekept cfg raw_item now_iso) cfg.signature_keys))])

/-- Lookup skips over a differing binding whose key is not the one looked
up: the workhorse for "rows agree everywhere except `date_indexed`". -/
theorem dict_get_append_mid_ne (l t : List (String × JVal)) (a : String) (x y : JVal)
    (f : String) (hf : f ≠ a) :
    dict_get (l ++ (a, x) :: t) f = dict_get (l ++ (a, y) :: t) f := by
  induction l with
  | nil =>
    simp only [List.nil_append, dict_get]
    rw [if_neg (fun h => hf h.symm), if_neg (fun h => hf h.symm)]
  | cons hd tl ih =>
    simp only [List.cons_append, dict_get]
    split
    · rfl
    · exact ih

/-- The registered configs are exactly those of `company_index` and
`company_details`. -/
theorem table_config_cases (tname : String) (cfg : TableCfg)
    (h : List.lookup tname TABLE_CONFIG = some cfg) :
    cfg = { normalize_map := COMPANY_INDEX_NORMALIZE_MAP,
            signature_keys := COMPANY_INDEX_SIGNATURE_KEYS }
    ∨ cfg = { normalize_map := COMPANY_DETAILS_NORMALIZE_MAP,
              signature_keys := COMPANY_DETAILS_SIGNATURE_KEYS } := by
  simp only [TABLE_CONFIG, List.lookup_cons, List.lookup_nil] at h
  cases hb1 : tname == "company_index" with
  | true =>
    rw [hb1] at h
    exact Or.inl (Option.some.inj h).symm
  | false =>
    rw [hb1] at h
    cases hb2 : tname == "company_details" with
    | true =>
      rw [hb2] at h
      exact Or.inr (Option.some.inj h).symm
    | false =>
      rw [hb2] at h
      exact Option.noConfusion h

/-- C8: normalization is deterministic up to the indexing timestamp — for
every registered target and source record, two `normalize_record` calls with
different wall-clock readings produce rows that agree on every field other
than `date_indexed`, and in particular on `row_signature`. -/
theorem normalize_record_deterministic_up_to_timestamp :
    ∀ tname cfg, List.lookup tname TABLE_CONFIG = some cfg →
    ∀ raw t1 t2, ∃ r1 r2,
      normalize_record tname raw t1 = some r1 ∧
      normalize_record tname raw t2 = some r2 ∧
      (∀ f, f ≠ "date_indexed" → dict_get r1 f = dict_get r2 f) ∧
      dict_get r1 "row_signature" = dict_get r2 "row_signature" := by
  intro tname cfg h raw t1 t2
  have hdi : "date_indexed" ∉ cfg.signature_keys := by
    rcases table_config_cases tname cfg h with h' | h' <;> (subst h'; decide)
  have hsig : make_signature (normalize_housekept cfg raw t1) cfg.signature_keys
            = make_signature (normalize_housekept cfg raw t2) cfg.signature_keys := by
    apply make_signature_congr
    intro k hk
    have hkne : k ≠ "date_indexed" := fun hkk => hdi (hkk ▸ hk)
    exact dict_get_append_mid_ne (normalize_base cfg raw)
      [("raw_json", JVal.jstr (json_dumps (.jobj raw)))] "date_indexed"
      (JVal.jstr t1) (JVal.jstr t2) k hkne
  have key : ∀ f, f ≠ "date_indexed" →
      dict_get (normalize_housekept cfg raw t1 ++
        [("row_signature",
          JVal.jstr (make_signature (normalize_housekept cfg raw t1) cfg.signature_keys))]) f
    = dict_get (normalize_housekept cfg raw t2 ++
        [("row_signature",
          JVal.jstr (make_signature (normalize_housekept cfg raw t2) cfg.signature_keys))]) f := by
    intro f hf
    rw [hsig]
    simp only [normalize_housekept, List.append_assoc, List.cons_append, List.nil_append]
    exact dict_get_append_mid_ne (normalize_base cfg raw)
      [("raw_json", JVal.jstr (json_dumps (.jobj raw))),
       ("row_signature",
        JVal.jstr (make_signature (normalize_housekept cfg raw t2) cfg.signature_keys))]
      "date_indexed" (JVal.jstr t1) (JVal.jstr t2) f hf
  refine ⟨_, _, ?_, ?_, key, key "row_signature" (by decide)⟩
  · simp only [normalize_record, h]
  · simp only [normalize_record, h]

/-- C8 witness: a concrete `company_index` record normalized at two distinct
timestamps. -/
theorem normalize_record_deterministic_up_to_timestamp_witness :
    ∃ r1 r2,
      normalize_record "company_index" [("company_number", JVal.jstr "00000001")]
        "2025-01-01T00:00:00" = some r1 ∧
      normalize_record "company_index" [("company_number", JVal.jstr "00000001")]
        "2025-01-02T09:30:00" = some r2 ∧
      (∀ f, f ≠ "date_indexed" → dict_get r1 f = dict_get r2 f) ∧
      dict_get r1 "row_signature" = dict_get r2 "row_signature" :=
  normalize_record_deterministic_up_to_timestamp "company_index" _ rfl
    [("company_number", JVal.jstr "00000001")] "2025-01-01T00:00:00" "2025-01-02T09:30:00"

/-! ### Fetcher (`ch_requests.paginate_companies_house`, src/ch_requests.py lines 34-102)

The external search API is modelled as a script of responses consumed one
per request.  `time.sleep` backoff/politeness delays have no observable
effect on pages or requests and are not modelled. -/

/-- One HTTP response to a page request: 416 range-not-satisfiable, 429
rate-limited, a transient error (`requests.RequestException`), or a page of
items. -/
inductive PageResp (α : Type) where
  | http416
  | http429
  | transientError
  | page (items : List α)

/-- Observable outcome of one pagination run: the pages yielded, the number
of requests issued, and whether the generator exited its loop (`ended =
false` means the response script ran out while the loop would continue). -/
structure PaginateResult (α : Type) where
  pages : List (List α)
  requests : Nat
  ended : Bool
deriving DecidableEq

/-- `ch_requests.paginate_companies_house` (src/ch_requests.py lines 34-102)
over a response script.  Branches, in source order: 416 ⇒ break (line 60);
429 ⇒ bump `consecutive_errors`, retry, no budget check (lines 62-67);
transient error ⇒ bump and break once `consecutive_errors >= max_retries`
(lines 73-82); success resets the counter (line 71); empty page ⇒ break
(lines 85-87); short page ⇒ break after yielding (lines 97-99). -/
def paginate_companies_house {α : Type} (items_per_page max_retries : Nat)
    (consecutive_errors : Nat) : List (PageResp α) → PaginateResult α
  | [] => ⟨[], 0, false⟩
  | r :: rest =>
    match r with
    | .http416 => ⟨[], 1, true⟩
    | .http429 =>
      let out := paginate_companies_house items_per_page max_retries (consecutive_errors + 1) rest
      ⟨out.pages, out.requests + 1, out.ended⟩
    | .transientError =>
      if consecutive_errors + 1 ≥ max_retries then ⟨[], 1, true⟩
      else
        let out := paginate_companies_house items_per_page max_retries (consecutive_errors + 1) rest
        ⟨out.pages, out.requests + 1, out.ended⟩
    | .page items =>
      if items.isEmpty then ⟨[], 1, true⟩
      else if items.length < items_per_page then ⟨[items], 1, true⟩
      else
        let out := paginate_companies_house items_per_page max_retries 0 rest
        ⟨items :: out.pages, out.requests + 1, out.ended⟩

/-- A run of 429 responses only bumps the shared `consecutive_errors`
counter and issues one request each; pagination then continues into the
rest of the script with the accumulated count.  No number of consecutive
429s ever breaks the loop. -/
theorem paginate_http429_accumulates (ipp m : Nat) :
    ∀ (n c : Nat) (s : List (PageResp Nat)),
    paginate_companies_house ipp m c (List.replicate n .http429 ++ s)
      = { pages := (paginate_companies_house ipp m (c + n) s).pages,
          requests := n + (paginate_companies_house ipp m (c + n) s).requests,
          ended := (paginate_companies_house ipp m (c + n) s).ended } := by
  intro n
  induction n with
  | zero => intro c s; simp [List.replicate]
  | succ k ih =>
    intro c s
    have hstep : paginate_companies_house ipp m c
          (List.replicate (k + 1) (PageResp.http429 (α := Nat)) ++ s)
        = { pages := (paginate_companies_house ipp m (c + 1)
              (List.replicate k .http429 ++ s)).pages,
            requests := (paginate_companies_house ipp m (c + 1)
              (List.replicate k .http429 ++ s)).requests + 1,
            ended := (paginate_companies_house ipp m (c + 1)
              (List.replicate k .http429 ++ s)).ended } := rfl
    rw [hstep, ih (c + 1) s]
    have hc : c + 1 + k = c + (k + 1) := by omega
    rw [hc]
    simp only [PaginateResult.mk.injEq, true_and, and_true]
    omega

/-- C2 counterexample: with retry budget `max_retries = 2`, two consecutive
429 responses — a count that reaches the budget — do not end the page
sequence (a third request is made and its page is yielded), while two
consecutive transient errors do end it. -/
theorem rate_limit_budget_counterexample :
    paginate_companies_house 1 2 0 [.http429, .http429, .page [0]]
      = { pages := [[0]], requests := 3, ended := false }
    ∧ paginate_companies_house 1 2 0 [.transientError, .transientError, .page [(0 : Nat)]]
      = { pages := [], requests := 2, ended := true } := by
  exact ⟨rfl, rfl⟩

/-- C2 amended: rate-limited responses increment the same
consecutive-error counter that the retry budget is checked against, so they
advance the budget seen by a subsequent transient error; but the budget
check itself runs only in the transient-error branch, so a run of
consecutive 429s alone never ends the page sequence, whereas transient
errors reaching the budget do. -/
theorem rate_limit_shares_counter_but_only_transient_breaks :
    (∀ (ipp m n c : Nat) (s : List (PageResp Nat)),
       paginate_companies_house ipp m c (List.replicate n .http429 ++ s)
         = { pages := (paginate_companies_house ipp m (c + n) s).pages,
             requests := n + (paginate_companies_house ipp m (c + n) s).requests,
             ended := (paginate_companies_house ipp m (c + n) s).ended })
    ∧ (∀ (ipp m c : Nat) (s : List (PageResp Nat)), c + 1 ≥ m →
         paginate_companies_house ipp m c (.transientError :: s)
           = { pages := [], requests := 1, ended := true }) := by
  constructor
  · intro ipp m n c s
    exact paginate_http429_accumulates ipp m n c s
  · intro ipp m c s h
    simp [paginate_companies_house, h]

/-- C2 amended witness: with budget 3, two 429s followed by one transient
error end the sequence (the 429s advanced the shared counter), and a
transient error with the counter already at 2 ends it directly. -/
theorem rate_limit_shares_counter_witness :
    paginate_companies_house 1 3 0
        (List.replicate 2 PageResp.http429 ++ [PageResp.transientError (α := Nat)])
      = { pages := [], requests := 3, ended := true }
    ∧ paginate_companies_house 1 3 2 [PageResp.transientError (α := Nat)]
      = { pages := [], requests := 1, ended := true } :=
  ⟨(rate_limit_shares_counter_but_only_transient_breaks.1 1 3 2 0
      [PageResp.transientError]).trans (by decide),
   rate_limit_shares_counter_but_only_transient_breaks.2 1 3 2 [] (by decide)⟩

/-- C4: pagination terminates exactly as specified — HTTP 416 ends cleanly
before yielding; an empty page ends cleanly; a non-empty page shorter than
the requested page size ends after being yielded; consecutive transient
errors reaching the retry budget stop the sequence with a plain break (no
error is surfaced — the result is an ordinary `PaginateResult`, not a
failure).  Concretely, pages of sizes 100, 100, 37 at page size 100 yield
exactly 3 pages with exactly 3 requests, whatever responses follow. -/
theorem paginate_termination_conditions :
    (∀ (ipp m c : Nat) (s : List (PageResp Nat)),
       paginate_companies_house ipp m c (.http416 :: s)
         = { pages := [], requests := 1, ended := true })
    ∧ (∀ (ipp m c : Nat) (s : List (PageResp Nat)),
       paginate_companies_house ipp m c (.page [] :: s)
         = { pages := [], requests := 1, ended := true })
    ∧ (∀ (ipp m c : Nat) (items : List Nat) (s : List (PageResp Nat)),
       items ≠ [] → items.length < ipp →
       paginate_companies_house ipp m c (.page items :: s)
         = { pages := [items], requests := 1, ended := true })
    ∧ (∀ (ipp m c : Nat) (s : List (PageResp Nat)), c + 1 ≥ m →
       paginate_companies_house ipp m c (.transientError :: s)
         = { pages := [], requests := 1, ended := true })
    ∧ (∀ (s : List (PageResp Nat)),
       paginate_companies_house 100 5 0
           (.page (List.replicate 100 0) :: .page (List.replicate 100 0)
             :: .page (List.replicate 37 0) :: s)
         = { pages := [List.replicate 100 0, List.replicate 100 0, List.replicate 37 0],
             requests := 3, ended := true }) := by
  refine ⟨fun ipp m c s => rfl, fun ipp m c s => rfl, ?_, ?_, fun s => rfl⟩
  · intro ipp m c items s hne hlt
    cases items with
    | nil => exact absurd rfl hne
    | cons a t =>
      simp only [paginate_companies_house]
      rw [if_neg (by simp), if_pos hlt]
  · intro ipp m c s h
    simp [paginate_companies_house, h]

/-- C4 witness: the short-page and budget-exhaustion conditions at concrete
inputs. -/
theorem paginate_termination_conditions_witness :
    paginate_companies_house 2 5 0 [.page [7], .page [1, 2]]
      = { pages := [[7]], requests := 1, ended := true }
    ∧ paginate_companies_house 2 3 2 [PageResp.transientError (α := Nat), .page [1, 2]]
      = { pages := [], requests := 1, ended := true } :=
  ⟨paginate_termination_conditions.2.2.1 2 5 0 [7] [.page [1, 2]] (by decide) (by decide),
   paginate_termination_conditions.2.2.2.1 2 3 2 [.page [1, 2]] (by decide)⟩

/-! ### Fetcher (`ch_requests.fetch_company_detail`, src/ch_requests.py lines 104-159) -/

/-- One HTTP response to a detail request: success with a JSON record, 404
not-found, 429 rate-limited, or a transient error. -/
inductive DetailResp where
  | ok (data : List (String × JVal))
  | notFound
  | http429
  | transientError

/-- `ch_requests.fetch_company_detail` (src/ch_requests.py lines 104-159)
over a response script, carrying the `attempt` counter of the source's
retry loop (0 on entry; incremented at the top of each iteration, line
131).  `some (.ok d)` is a returned record, `some (.ok [])` the `{}`
returned on 404 (line 136), `some (.error ())` a raised error: for a 429
with `attempt >= max_retries` the `resp.raise_for_status()` on line 144 is
caught by the `except` on line 151 and re-raised on line 156; a transient
error with `attempt >= max_retries` is re-raised directly.  `none` means
the response script ran out while the loop would continue. -/
def fetch_company_detail (max_retries : Nat) (attempt : Nat) :
    List DetailResp → Option (Except Unit (List (String × JVal)))
  | [] => none
  | r :: rest =>
    match r with
    | .ok d => some (.ok d)
    | .notFound => some (.ok [])
    | .http429 =>
      if attempt + 1 ≥ max_retries then some (.error ())
      else fetch_company_detail max_retries (attempt + 1) rest
    | .transientError =>
      if attempt + 1 ≥ max_retries then some (.error ())
      else fetch_company_detail max_retries (attempt + 1) rest

/-- A response that is retried (429 or transient error), as opposed to one
that returns. -/
def DetailResp.isRetried : DetailResp → Bool
  | .http429 => true
  | .transientError => true
  | _ => false

/-- A full budget of retried responses ends in a raised error: starting
from attempt `a`, `k ≥ 1` more retried responses with `a + k = max_retries`
exhaust the budget. -/
theorem fetch_exhausts_budget (r : DetailResp) (hr : r.isRetried = true) :
    ∀ (k a m : Nat), a + k = m → 1 ≤ k →
    fetch_company_detail m a (List.replicate k r) = some (.error ()) := by
  intro k
  induction k with
  | zero => intro a m _ h1; exact absurd h1 (by decide)
  | succ j ih =>
    intro a m hm _
    cases r with
    | ok d => exact absurd hr (by simp [DetailResp.isRetried])
    | notFound => exact absurd hr (by simp [DetailResp.isRetried])
    | http429 =>
      by_cases hj : j = 0
      · subst hj
        simp only [List.replicate_succ, fetch_company_detail]
        rw [if_pos (by omega)]
      · simp only [List.replicate_succ, fetch_company_detail]
        rw [if_neg (by omega)]
        exact ih (a + 1) m (by omega) (by omega)
    | transientError =>
      by_cases hj : j = 0
      · subst hj
        simp only [List.replicate_succ, fetch_company_detail]
        rw [if_pos (by omega)]
      · simp only [List.replicate_succ, fetch_company_detail]
        rw [if_neg (by omega)]
        exact ih (a + 1) m (by omega) (by omega)

/-- C5: the single-record detail fetch returns the record on success,
returns the empty (`Absent`) record on a 404 — inside `.ok`, not an error —
and raises a fetch error to the caller when the attempts exhaust the retry
budget on transient errors or on rate limiting. -/
theorem fetch_company_detail_outcomes :
    (∀ (m : Nat) (d : List (String × JVal)) (s : List DetailResp),
       fetch_company_detail m 0 (.ok d :: s) = some (.ok d))
    ∧ (∀ (m : Nat) (s : List DetailResp),
       fetch_company_detail m 0 (.notFound :: s) = some (.ok []))
    ∧ (∀ m : Nat, 1 ≤ m →
       fetch_company_detail m 0 (List.replicate m .transientError) = some (.error ()))
    ∧ (∀ m : Nat, 1 ≤ m →
       fetch_company_detail m 0 (List.replicate m .http429) = some (.error ())) :=
  ⟨fun _ _ _ => rfl, fun _ _ => rfl,
   fun m hm => fetch_exhausts_budget .transientError rfl m 0 m (by omega) hm,
   fun m hm => fetch_exhausts_budget .http429 rfl m 0 m (by omega) hm⟩

/-- C5 witness: the budget-exhaustion conjuncts at the source default
`max_retries = 3`. -/
theorem fetch_company_detail_outcomes_witness :
    fetch_company_detail 3 0 (List.replicate 3 .transientError) = some (.error ())
    ∧ fetch_company_detail 3 0 (List.replicate 3 .http429) = some (.error ()) :=
  ⟨fetch_company_detail_outcomes.2.2.1 3 (by decide),
   fetch_company_detail_outcomes.2.2.2 3 (by decide)⟩

/-! ### Dedup Writer (`bq_writer.insert_rows_for_table`, src/bq_writer.py lines 114-153)

The warehouse boundary is modelled by the set `table_sigs` of signature
strings present in the target table and by a per-batch outcome oracle
`outcome : Nat → List String` giving the error list that
`bq.insert_rows_json` returns for the batch at each index (empty = batch
written).  `ensure_table_exists` (idempotent create) does not influence the
dedup/insert logic and is not modelled. -/

/-- Python `sig in existing` where `existing` is a set of signature strings:
a string value is tested by membership, any non-string (including `None`
for a missing key) is in no set of strings. -/
def sig_mem (v : JVal) (existing : List String) : Bool :=
  match v with
  | .jstr s => existing.contains s
  | _ => false

/-- Line 128: `[r.get("row_signature") for r in rows if r.get("row_signature")]`
— the truthy signature values of the input batch.  Only string signatures
can match the string set the existence query returns, so non-string truthy
values (which would never compare equal to a queried string) are dropped
here as well. -/
def requested_signatures (rows : List (List (String × JVal))) : List String :=
  rows.filterMap (fun r =>
    match dict_get r "row_signature" with
    | .jstr s => if s = "" then none else some s
    | _ => none)

/-- `bq_writer.fetch_existing_signatures` (src/bq_writer.py lines 85-109)
at the warehouse boundary: of the requested signatures, those present in
the table.  The ≤500-signature query chunking changes only how the lookup
is split, never the returned set, and the `dict.fromkeys` deduplication of
the request list never changes it either; neither is modelled. -/
def fetch_existing_signatures (table_sigs : List String) (signatures : List String) : List String :=
  signatures.filter (fun s => table_sigs.contains s)

/-- Line 133: the rows whose signature is not among the existing ones. -/
def to_insert_rows (existing : List String) (rows : List (List (String × JVal))) :
    List (List (String × JVal)) :=
  rows.filter (fun r => !(sig_mem (dict_get r "row_signature") existing))

/-- The `{"inserted": n, "skipped": m, "errors": [...]}` result dict of
`insert_rows_for_table` (line 135). -/
structure InsertResult where
  inserted : Nat
  skipped : Nat
  errors : List String
deriving DecidableEq

/-- Number of iterations of `range(0, n, batch_size)` (line 144):
`⌈n / batch_size⌉` for a positive step. -/
def num_batches (batch_size n : Nat) : Nat := (n + batch_size - 1) / batch_size

/-- The batch at ordinal `j`: `to_insert[i : i + batch_size]` for
`i = j * batch_size` (line 145). -/
def batch_slice (batch_size : Nat) (to_insert : List (List (String × JVal))) (j : Nat) :
    List (List (String × JVal)) :=
  (to_insert.drop (j * batch_size)).take batch_size

/-- The batch loop of `insert_rows_for_table` (src/bq_writer.py lines
143-151): for each batch in order, ask the writer, and either count the
batch as inserted or append its errors — never aborting the remaining
batches and never raising.  `outcome j` is the error list
`bq.insert_rows_json` returns for the `j`-th batch. -/
def write_batches (outcome : Nat → List String) (batch_size : Nat)
    (to_insert : List (List (String × JVal))) (acc : InsertResult) : InsertResult :=
  (List.range (num_batches batch_size to_insert.length)).foldl
    (fun acc j =>
      if (outcome j).isEmpty
      then { acc with inserted := acc.inserted + (batch_slice batch_size to_insert j).length }
      else { acc with errors := acc.errors ++ outcome j })
    acc

/-- `bq_writer.insert_rows_for_table` (src/bq_writer.py lines 114-153) with
an explicit batch size (the source fixes 500 on line 143; see
`insert_rows_for_table`). -/
def insert_rows_for_table_core (table_sigs : List String) (outcome : Nat → List String)
    (batch_size : Nat) (rows : List (List (String × JVal))) : InsertResult :=
  let existing := fetch_existing_signatures table_sigs (requested_signatures rows)
  let to_insert := to_insert_rows existing rows
  let result0 : InsertResult :=
    { inserted := 0, skipped := rows.length - to_insert.length, errors := [] }
  if to_insert.isEmpty then result0
  else write_batches outcome batch_size to_insert result0

/-- `bq_writer.insert_rows_for_table` with the source's `batch_size = 500`. -/
def insert_rows_for_table (table_sigs : List String) (outcome : Nat → List String)
    (rows : List (List (String × JVal))) : InsertResult :=
  insert_rows_for_table_core table_sigs outcome 500 rows

/-- Folding the batch loop prepends the accumulator and splits into a sum
over successful batches and a concatenation over failing ones. -/
theorem write_batches_spec (outcome : Nat → List String) (batch_size : Nat)
    (to_insert : List (List (String × JVal))) (acc : InsertResult) :
    write_batches outcome batch_size to_insert acc =
      { inserted := acc.inserted +
          ((List.range (num_batches batch_size to_insert.length)).map
            (fun j => if (outcome j).isEmpty
                      then (batch_slice batch_size to_insert j).length else 0)).sum,
        skipped := acc.skipped,
        errors := acc.errors ++
          ((List.range (num_batches batch_size to_insert.length)).map
            (fun j => if (outcome j).isEmpty then [] else outcome j)).flatten } := by
  unfold write_batches
  generalize List.range (num_batches batch_size to_insert.length) = js
  induction js generalizing acc with
  | nil => simp
  | cons j js ih =>
    simp only [List.foldl_cons, List.map_cons, List.sum_cons, List.flatten_cons, ih]
    by_cases hj : (outcome j).isEmpty
    · simp [hj, Nat.add_assoc]
    · simp [hj, List.append_assoc]

/-- A concrete row holding only its signature, for the batch scenarios. -/
def sigRow (s : String) : List (String × JVal) := [("row_signature", JVal.jstr s)]

/-- C3: rows whose signature already exists in the target collection are
counted as skipped — not written (they never enter the write loop, which
runs over `to_insert_rows` only) and not reported as an error; the
remaining rows go out in fixed-size batches whose failures are appended to
`errors` without aborting the following batches.  Concretely, with two
sub-batches of which only the second fails, the result reports the first
sub-batch's size as inserted and exactly one errors entry — as a returned
value, not an exception. -/
theorem insert_rows_dedup_and_partial_failure :
    (∀ (table_sigs : List String) (outcome : Nat → List String) (b : Nat)
       (rows : List (List (String × JVal))),
       (insert_rows_for_table_core table_sigs outcome b rows).skipped
         = (rows.filter (fun r => sig_mem (dict_get r "row_signature")
             (fetch_existing_signatures table_sigs (requested_signatures rows)))).length)
    ∧ (∀ (table_sigs : List String) (outcome : Nat → List String) (b : Nat)
       (rows : List (List (String × JVal))),
       (insert_rows_for_table_core table_sigs outcome b rows).inserted
         = ((List.range (num_batches b (to_insert_rows
               (fetch_existing_signatures table_sigs (requested_signatures rows)) rows).length)).map
             (fun j => if (outcome j).isEmpty
               then (batch_slice b (to_insert_rows
                 (fetch_existing_signatures table_sigs (requested_signatures rows)) rows) j).length
               else 0)).sum
       ∧ (insert_rows_for_table_core table_sigs outcome b rows).errors
         = ((List.range (num_batches b (to_insert_rows
               (fetch_existing_signatures table_sigs (requested_signatures rows)) rows).length)).map
             (fun j => if (outcome j).isEmpty then [] else outcome j)).flatten)
    ∧ insert_rows_for_table_core ["dup"] (fun j => if j = 1 then ["batch-1-failed"] else []) 2
        [sigRow "dup", sigRow "a", sigRow "b", sigRow "c"]
        = { inserted := 2, skipped := 1, errors := ["batch-1-failed"] } := by
  refine ⟨?_, ?_, by decide⟩
  · intro table_sigs outcome b rows
    have hsplit := List.length_eq_length_filter_add
      (l := rows) (fun r => sig_mem (dict_get r "row_signature")
        (fetch_existing_signatures table_sigs (requested_signatures rows)))
    simp only [insert_rows_for_table_core]
    split
    · simp only [to_insert_rows] at hsplit ⊢
      omega
    · rw [write_batches_spec]
      simp only [to_insert_rows] at hsplit ⊢
      omega
  · intro table_sigs outcome b rows
    simp only [insert_rows_for_table_core]
    split
    · rename_i hemp
      have hnil : to_insert_rows
          (fetch_existing_signatures table_sigs (requested_signatures rows)) rows = [] :=
        List.isEmpty_iff.mp hemp
      have hz : num_batches b (0 : Nat) = 0 := by
        rcases Nat.eq_zero_or_pos b with hb | hb
        · simp [num_batches, hb]
        · exact Nat.div_eq_of_lt (by omega)
      rw [hnil]
      simp [List.length_nil, hz, List.range_zero, List.map_nil,
        List.sum_nil, List.flatten_nil]
    · rw [write_batches_spec]
      constructor <;> simp

/-- C3 witness: the skipped-count and batch-decomposition conjuncts at the
concrete partial-failure scenario. -/
theorem insert_rows_dedup_and_partial_failure_witness :
    (insert_rows_for_table_core ["dup"] (fun j => if j = 1 then ["batch-1-failed"] else []) 2
        [sigRow "dup", sigRow "a", sigRow "b", sigRow "c"]).skipped
      = ([sigRow "dup", sigRow "a", sigRow "b", sigRow "c"].filter
          (fun r => sig_mem (dict_get r "row_signature")
            (fetch_existing_signatures ["dup"]
              (requested_signatures
                [sigRow "dup", sigRow "a", sigRow "b", sigRow "c"])))).length :=
  insert_rows_dedup_and_partial_failure.1 ["dup"]
    (fun j => if j = 1 then ["batch-1-failed"] else []) 2
    [sigRow "dup", sigRow "a", sigRow "b", sigRow "c"]

/-- The truthiness filter on line 128 keeps the empty string out of the
requested signatures, so the existence query can never report it. -/
theorem requested_signatures_ne_empty (rows : List (List (String × JVal))) (s : String)
    (h : s ∈ requested_signatures rows) : s ≠ "" := by
  unfold requested_signatures at h
  rw [List.mem_filterMap] at h
  obtain ⟨r, _, hr⟩ := h
  rcases hv : dict_get r "row_signature" with _ | s' | _ | _ | _ | _ <;> rw [hv] at hr
  case jstr =>
    change (if s' = "" then none else some s') = some s at hr
    by_cases hs' : s' = ""
    · rw [if_pos hs'] at hr
      exact Option.noConfusion hr
    · rw [if_neg hs'] at hr
      rw [← Option.some.inj hr]
      exact hs'
  all_goals exact Option.noConfusion hr

/-- C10: the Dedup Writer deduplicates only against signatures already in
the target table, never within the input batch — a row whose signature is
missing (`None`), empty, or absent from the table is always classified as
new; in particular two in-batch rows sharing a fresh signature are both
written, and rows with missing or empty signatures are written even when
the table contains the empty string. -/
theorem dedup_only_against_table_not_within_batch :
    (∀ (table_sigs : List String) (rows : List (List (String × JVal)))
       (r : List (String × JVal)), r ∈ rows →
       (dict_get r "row_signature" = .jnull ∨ dict_get r "row_signature" = .jstr "" ∨
        (∃ s, dict_get r "row_signature" = .jstr s ∧ table_sigs.contains s = false)) →
       r ∈ to_insert_rows (fetch_existing_signatures table_sigs (requested_signatures rows)) rows)
    ∧ insert_rows_for_table_core ["old"] (fun _ => []) 500 [sigRow "new", sigRow "new"]
        = { inserted := 2, skipped := 0, errors := [] }
    ∧ insert_rows_for_table_core ["x", ""] (fun _ => []) 500 [[], sigRow ""]
        = { inserted := 2, skipped := 0, errors := [] } := by
  refine ⟨?_, by decide, by decide⟩
  intro table_sigs rows r hmem hcase
  unfold to_insert_rows
  rw [List.mem_filter]
  refine ⟨hmem, ?_⟩
  rcases hcase with h | h | ⟨s, h, hfresh⟩ <;> rw [h]
  · rfl
  · simp only [sig_mem, Bool.not_eq_true']
    simp only [List.contains, List.elem_eq_mem, decide_eq_false_iff_not]
    intro habs
    unfold fetch_existing_signatures at habs
    rw [List.mem_filter] at habs
    exact requested_signatures_ne_empty rows "" habs.1 rfl
  · simp only [sig_mem, Bool.not_eq_true']
    simp only [List.contains, List.elem_eq_mem, decide_eq_false_iff_not]
    intro habs
    unfold fetch_existing_signatures at habs
    rw [List.mem_filter] at habs
    rw [habs.2] at hfresh
    exact Bool.noConfusion hfresh

/-- C10 witness: a row with a signature absent from the table is classified
as new. -/
theorem dedup_only_against_table_witness :
    sigRow "n" ∈ to_insert_rows
      (fetch_existing_signatures ["t"] (requested_signatures [sigRow "n"])) [sigRow "n"] :=
  dedup_only_against_table_not_within_batch.1 ["t"] [sigRow "n"] (sigRow "n")
    (List.mem_singleton.mpr rfl)
    (Or.inr (Or.inr ⟨"n", rfl, by decide⟩))

/-! ### Diff Detector (`producer.DIFF_SQL`, src/producer.py lines 26-41) -/

/-- A `company_index` row as projected by the `idx` CTE of `DIFF_SQL`:
natural identifier, self-link, `row_signature` and `date_indexed`
(modelled as a numeric timestamp for ordering). -/
structure IndexRow where
  company_number : String
  links_self : Option String
  row_signature : String
  date_indexed : Nat
deriving DecidableEq

/-- A `company_details` row as projected by the `det` CTE of `DIFF_SQL`. -/
structure DetailRow where
  company_number : String
  index_row_signature : String
deriving DecidableEq

/-- One row of the `DIFF_SQL` result — the ChangeEvent payload built from
it in `publish_messages` (src/producer.py lines 51-56). -/
structure ChangeEvent where
  company_number : String
  links_self : Option String
  index_row_signature : String
  date_indexed : Nat
deriving DecidableEq

/-- The `SELECT i.company_number, i.links_self, i.index_row_signature,
i.date_indexed` projection (line 35). -/
def toChangeEvent (i : IndexRow) : ChangeEvent :=
  { company_number := i.company_number, links_self := i.links_self,
    index_row_signature := i.row_signature, date_indexed := i.date_indexed }

/-- `producer.DIFF_SQL` (src/producer.py lines 26-41) under list semantics:
`LEFT JOIN det ON company_number` (an unmatched index row joins a NULL),
`WHERE d.details_index_sig IS NULL OR d.details_index_sig !=
i.index_row_signature`, then `ORDER BY i.date_indexed DESC`. -/
def diff_sql (idx : List IndexRow) (det : List DetailRow) : List ChangeEvent :=
  let joined := idx.flatMap (fun i =>
    let ms := det.filter (fun d => d.company_number = i.company_number)
    if ms.isEmpty then [(i, (none : Option String))]
    else ms.map (fun d => (i, some d.index_row_signature)))
  let selected := joined.filter (fun p =>
    match p.2 with
    | none => true
    | some s => s != p.1.row_signature)
  (selected.map (fun p => toChangeEvent p.1)).mergeSort
    (fun a b => b.date_indexed ≤ a.date_indexed)

theorem toChangeEvent_inj {a b : IndexRow} (h : toChangeEvent a = toChangeEvent b) : a = b := by
  cases a; cases b
  simp only [toChangeEvent, ChangeEvent.mk.injEq] at h
  simp [h.1, h.2.1, h.2.2.1, h.2.2.2]

/-- The two index rows of the spec example: `A` indexed most recently. -/
def exIdx : List IndexRow :=
  [{ company_number := "A", links_self := some "/company/A",
     row_signature := "sigA1", date_indexed := 2 },
   { company_number := "B", links_self := some "/company/B",
     row_signature := "sigB1", date_indexed := 1 }]

/-- C6: an index entry produces a ChangeEvent iff no detail entry exists
for its identifier or a detail entry for it carries an `index_row_signature`
different from the entry's `row_signature` (with at most one detail row per
identifier, "a detail entry" is "the detail entry"); the output is ordered
by `date_indexed` descending — most recently indexed first.  On the spec
example: index `{A: sigA1 (newest), B: sigB1}` against details `{A: sigA1}`
yields exactly the event for `B`; against `{A: sigA1, B: sigB1}` it yields
none. -/
theorem diff_sql_missing_or_stale_and_ordered :
    (∀ (idx : List IndexRow) (det : List DetailRow) (i : IndexRow), i ∈ idx →
       (toChangeEvent i ∈ diff_sql idx det ↔
         ((∀ d ∈ det, d.company_number ≠ i.company_number) ∨
          (∃ d ∈ det, d.company_number = i.company_number ∧
            d.index_row_signature ≠ i.row_signature))))
    ∧ (∀ (idx : List IndexRow) (det : List DetailRow),
        (diff_sql idx det).Pairwise (fun a b => b.date_indexed ≤ a.date_indexed))
    ∧ diff_sql exIdx [{ company_number := "A", index_row_signature := "sigA1" }]
        = [{ company_number := "B", links_self := some "/company/B",
             index_row_signature := "sigB1", date_indexed := 1 }]
    ∧ diff_sql exIdx [{ company_number := "A", index_row_signature := "sigA1" },
                      { company_number := "B", index_row_signature := "sigB1" }]
        = [] := by
  refine ⟨?_, ?_, ?_, ?_⟩
  · intro idx det i hi
    unfold diff_sql
    rw [List.mem_mergeSort]
    constructor
    · intro hmem
      obtain ⟨p, hpsel, hpe⟩ := List.mem_map.mp hmem
      have hp1 : p.1 = i := toChangeEvent_inj hpe
      rw [List.mem_filter] at hpsel
      obtain ⟨hpJ, hpsel⟩ := hpsel
      obtain ⟨i2, hi2, hpmem⟩ := List.mem_flatMap.mp hpJ
      by_cases hm : (det.filter (fun d => d.company_number = i2.company_number)).isEmpty
      · rw [if_pos hm] at hpmem
        have hpeq : p = (i2, (none : Option String)) := List.mem_singleton.mp hpmem
        left
        intro d hd
        have hfilter := List.filter_eq_nil_iff.mp (List.isEmpty_iff.mp hm) d hd
        rw [hpeq] at hp1
        simp only at hp1
        rw [← hp1]
        simpa using hfilter
      · rw [if_neg hm] at hpmem
        obtain ⟨d, hd, hpd⟩ := List.mem_map.mp hpmem
        right
        have hdmem := List.mem_filter.mp hd
        rw [← hpd] at hp1 hpsel
        simp only at hp1 hpsel
        refine ⟨d, hdmem.1, ?_, ?_⟩
        · have hcn := hdmem.2
          rw [hp1] at hcn
          simpa using hcn
        · rw [hp1] at hpsel
          simpa using hpsel
    · rintro (habs | ⟨d, hd, hcn, hsig⟩)
      · apply List.mem_map.mpr
        refine ⟨(i, none), ?_, rfl⟩
        rw [List.mem_filter]
        refine ⟨?_, rfl⟩
        apply List.mem_flatMap.mpr
        refine ⟨i, hi, ?_⟩
        rw [if_pos ?hempt]
        case hempt =>
          rw [List.isEmpty_iff]
          apply List.filter_eq_nil_iff.mpr
          intro d hd
          simpa using habs d hd
        exact List.mem_singleton.mpr rfl
      · apply List.mem_map.mpr
        refine ⟨(i, some d.index_row_signature), ?_, rfl⟩
        rw [List.mem_filter]
        have hdf : d ∈ det.filter (fun d2 => d2.company_number = i.company_number) :=
          List.mem_filter.mpr ⟨hd, by simpa using hcn⟩
        constructor
        · apply List.mem_flatMap.mpr
          refine ⟨i, hi, ?_⟩
          rw [if_neg ?hne]
          case hne =>
            intro hempt
            rw [List.isEmpty_iff] at hempt
            rw [hempt] at hdf
            exact List.not_mem_nil d hdf
          exact List.mem_map.mpr ⟨d, hdf, rfl⟩
        · simpa using hsig
  · intro idx det
    unfold diff_sql
    exact List.Pairwise.imp (by intro a b h; simpa using h)
      (List.sorted_mergeSort
        (by intro a b c hab hbc; simp only [decide_eq_true_eq] at hab hbc ⊢; omega)
        (by intro a b; simp [Nat.le_total]) _)
  · simp [diff_sql, exIdx, toChangeEvent, List.filter, List.flatMap]
  · simp [diff_sql, exIdx, toChangeEvent, List.filter, List.flatMap]

/-- C6 witness: on the spec example, the event for `B` is in the diff
(missing detail entry), via the membership characterization. -/
theorem diff_sql_missing_or_stale_witness :
    toChangeEvent ⟨"B", some "/company/B", "sigB1", 1⟩
      ∈ diff_sql exIdx [⟨"A", "sigA1"⟩] :=
  (diff_sql_missing_or_stale_and_ordered.1 exIdx
      [⟨"A", "sigA1"⟩] _
      (by decide)).mpr
    (Or.inl (by decide))

/-! ### Publisher (`producer.publish_messages`, src/producer.py lines 43-65)

Each diff row is paired with the outcome of its `future.result()` channel
acknowledgment (`true` = confirmed, `false` = the wait raises).  The run
returns the list of rows published *and acknowledged*, in order, together
with either the returned count or the propagated channel error. -/

/-- Line 63: `if limit and count >= int(limit): break` — Python truthiness
makes both `None` and `0` skip the check. -/
def py_limit_hit (limit : Option Nat) (count : Nat) : Bool :=
  match limit with
  | none => false
  | some l => !(l == 0) && (count ≥ l)

/-- `producer.publish_messages` (src/producer.py lines 43-65): publish each
row, wait for its acknowledgment before advancing, count it, and stop once
the limit check fires; an acknowledgment failure propagates immediately,
abandoning the rest of the sequence. -/
def publish_messages {α : Type} : List (α × Bool) → Option Nat → Nat → List α × Except Unit Nat
  | [], _, count => ([], .ok count)
  | (r, ack) :: rest, limit, count =>
    if ack then
      let c := count + 1
      if py_limit_hit limit c then ([r], .ok c)
      else
        let out := publish_messages rest limit c
        (r :: out.1, out.2)
    else ([], .error ())

/-- C9 counterexample: with `limit = 0` — a given limit — the publisher
does not publish "at most 0" events: the truthiness check `if limit and
...` never fires, and a one-row sequence publishes one event. -/
theorem publish_messages_limit_zero_counterexample :
    publish_messages [((0 : Nat), true)] (some 0) 0 = ([0], .ok 1) ∧ ¬(1 ≤ 0) :=
  ⟨rfl, by decide⟩

/-- With a positive limit and all acknowledgments succeeding, the run
publishes `rows.take (l - c)` and returns `min l (c + rows.length)`. -/
theorem publish_messages_limited (l : Nat) (hl : 0 < l) :
    ∀ (rows : List Nat) (c : Nat), c < l →
    publish_messages (rows.map (fun r => (r, true))) (some l) c
      = (rows.take (l - c), .ok (min l (c + rows.length))) := by
  intro rows
  induction rows with
  | nil =>
    intro c hc
    simp only [List.map_nil, publish_messages, List.take_nil, List.length_nil]
    rw [Nat.add_zero, Nat.min_eq_right (Nat.le_of_lt hc)]
  | cons r rest ih =>
    intro c hc
    have hstep : publish_messages ((r :: rest).map (fun x => (x, true))) (some l) c
        = (if py_limit_hit (some l) (c + 1) then ([r], Except.ok (c + 1))
           else (r :: (publish_messages (rest.map (fun x => (x, true))) (some l) (c + 1)).1,
                 (publish_messages (rest.map (fun x => (x, true))) (some l) (c + 1)).2)) := rfl
    rw [hstep]
    by_cases hhit : c + 1 = l
    · have hd : (decide (c + 1 ≥ l)) = true := decide_eq_true (by omega)
      have hz : ((l == 0) : Bool) = false := by
        rw [beq_eq_false_iff_ne]
        omega
      have hp : py_limit_hit (some l) (c + 1) = true := by
        change (!(l == 0) && decide (c + 1 ≥ l)) = true
        rw [hd, hz]
        rfl
      rw [hp, if_pos rfl]
      have h1 : l - c = 1 := by omega
      have h2 : min l (c + (r :: rest).length) = c + 1 := by
        simp only [List.length_cons]
        omega
      rw [h1, h2]
      rfl
    · have hd : (decide (c + 1 ≥ l)) = false := decide_eq_false (by omega)
      have hp : py_limit_hit (some l) (c + 1) = false := by
        change (!(l == 0) && decide (c + 1 ≥ l)) = false
        rw [hd, Bool.and_false]
      rw [hp]
      simp only [Bool.false_eq_true, if_false]
      rw [ih (c + 1) (by omega)]
      have h1 : l - c = (l - (c + 1)) + 1 := by omega
      have h2 : min l (c + 1 + rest.length) = min l (c + (r :: rest).length) := by
        simp only [List.length_cons]
        omega
      rw [h1, List.take_succ_cons, h2]

/-- When the limit check can never fire (`None`, or `0` by truthiness), the
run publishes everything and returns the running count plus the length. -/
theorem publish_messages_no_limit_hit (limit : Option Nat)
    (hlim : ∀ c, py_limit_hit limit c = false) :
    ∀ (rows : List Nat) (c : Nat),
    publish_messages (rows.map (fun r => (r, true))) limit c
      = (rows, .ok (c + rows.length)) := by
  intro rows
  induction rows with
  | nil => intro c; simp [publish_messages]
  | cons r rest ih =>
    intro c
    have hstep : publish_messages ((r :: rest).map (fun x => (x, true))) limit c
        = (if py_limit_hit limit (c + 1) then ([r], Except.ok (c + 1))
           else (r :: (publish_messages (rest.map (fun x => (x, true))) limit (c + 1)).1,
                 (publish_messages (rest.map (fun x => (x, true))) limit (c + 1)).2)) := rfl
    rw [hstep, hlim (c + 1)]
    simp only [Bool.false_eq_true, if_false]
    rw [ih (c + 1)]
    simp only [List.length_cons]
    have harith : c + 1 + rest.length = c + (rest.length + 1) := by omega
    rw [harith]

/-- A failed acknowledgment aborts the run at once: everything before it is
published, nothing after it is touched, and the error propagates. -/
theorem publish_messages_fail_fast :
    ∀ (pre : List Nat) (r : Nat) (post : List Nat) (c : Nat),
    publish_messages (pre.map (fun x => (x, true)) ++ (r, false) :: post.map (fun x => (x, true)))
        none c
      = (pre, .error ()) := by
  intro pre
  induction pre with
  | nil => intro r post c; simp [publish_messages]
  | cons p rest ih =>
    intro r post c
    have hstep : publish_messages
          ((p :: rest).map (fun x => (x, true)) ++ (r, false) :: post.map (fun x => (x, true)))
          none c
        = (p :: (publish_messages
              (rest.map (fun x => (x, true)) ++ (r, false) :: post.map (fun x => (x, true)))
              none (c + 1)).1,
           (publish_messages
              (rest.map (fun x => (x, true)) ++ (r, false) :: post.map (fun x => (x, true)))
              none (c + 1)).2) := rfl
    rw [hstep, ih r post (c + 1)]

/-- C9 amended: for every *positive* limit the Publisher publishes at most
`limit` events, stopping as soon as the published count reaches the limit;
without a limit it stops only at sequence exhaustion; a limit of `0` is
treated by the truthiness check `if limit and ...` as "no limit" and also
publishes the whole sequence; and an acknowledgment failure — the wait on
`future.result()` raising — propagates immediately, aborting the remainder
of the run with everything before the failure published in order. -/
theorem publish_messages_behaviour :
    (∀ (rows : List Nat) (l : Nat), 0 < l →
       publish_messages (rows.map (fun r => (r, true))) (some l) 0
         = (rows.take l, .ok (min l rows.length)))
    ∧ (∀ rows : List Nat,
       publish_messages (rows.map (fun r => (r, true))) none 0
         = (rows, .ok rows.length))
    ∧ (∀ rows : List Nat,
       publish_messages (rows.map (fun r => (r, true))) (some 0) 0
         = (rows, .ok rows.length))
    ∧ (∀ (pre : List Nat) (r : Nat) (post : List Nat),
       publish_messages
           (pre.map (fun x => (x, true)) ++ (r, false) :: post.map (fun x => (x, true))) none 0
         = (pre, .error ())) := by
  refine ⟨?_, ?_, ?_, ?_⟩
  · intro rows l hl
    simpa using publish_messages_limited l hl rows 0 hl
  · intro rows
    simpa using publish_messages_no_limit_hit none (fun _ => rfl) rows 0
  · intro rows
    simpa using publish_messages_no_limit_hit (some 0) (fun _ => rfl) rows 0
  · intro pre r post
    exact publish_messages_fail_fast pre r post 0

/-- C9 amended witness: limit 2 over three rows publishes the first two and
returns 2. -/
theorem publish_messages_behaviour_witness :
    publish_messages [((1 : Nat), true), (2, true), (3, true)] (some 2) 0
      = ([1, 2], .ok 2) :=
  publish_messages_behaviour.1 [1, 2, 3] 2 (by decide)

/-! ### Change Consumer (`subscriber.receive_pubsub_push`, src/subscriber.py lines 72-130)

The collaborators of one delivery are fixed by a `HandlerWorld`: the result
of the `is_up_to_date` idempotency query (lines 52-69, 103), the JSON that
`fetch_company_detail` returns (line 109), and the error list the Dedup
Writer would report (line 119).  The handler's observable outcome is its
HTTP status — 200 = Ack, 500 = Retry — plus whether the write was
reached. -/

/-- The parameter list of `normalize.normalize_record`
(src/normalize.py line 65): `def normalize_record(table_name, raw_item)` —
no `extra_fields` parameter and no `**kwargs`. -/
def normalize_record_param_names : List String := ["table_name", "raw_item"]

/-- The keyword arguments the subscriber passes beyond the positional ones
(src/subscriber.py line 115):
`normalize_record("company_details", detail_json, extra_fields={...})`. -/
def subscriber_normalize_extra_kwargs : List String := ["extra_fields"]

/-- Python call semantics: passing a keyword argument that is not a
parameter of the callee raises `TypeError`. -/
def subscriber_normalize_call_raises_type_error : Bool :=
  subscriber_normalize_extra_kwargs.any (fun k => !(normalize_record_param_names.contains k))

/-- The fixed collaborator responses for one delivery. -/
structure HandlerWorld where
  up_to_date : Bool
  detail_json : List (String × JVal)
  writer_errors : List String

/-- `subscriber.receive_pubsub_push` (src/subscriber.py lines 72-130) after
envelope decoding, as (HTTP status, whether `insert_rows_for_table` was
reached).  Branches in source order: up-to-date ⇒ 200 (lines 103-105);
`if not detail_json` ⇒ 200 (lines 110-112); the `normalize_record(...,
extra_fields=...)` call on line 115 — a `TypeError` there is caught by the
`except` on line 127 and returned as 500 (line 130); writer errors ⇒ 500
(lines 119-122); otherwise 200 (line 125). -/
def receive_pubsub_push (w : HandlerWorld) : Nat × Bool :=
  if w.up_to_date then (200, false)
  else if w.detail_json.isEmpty then (200, false)
  else if subscriber_normalize_call_raises_type_error then (500, false)
  else if w.writer_errors.isEmpty then (200, true) else (500, true)

/-- C1 (code bug): for every delivered event that is not already up-to-date
and whose detail fetch returns a non-empty record, the handler returns 500
(Retry) without ever reaching the Dedup Writer — the
`normalize_record(..., extra_fields=...)` call raises `TypeError` because
`normalize_record` accepts no such parameter — even when the writer would
report no error; the claimed Ack-on-success path is unreachable. -/
theorem receive_pubsub_push_always_retries_on_fresh_event :
    (∀ w : HandlerWorld, w.up_to_date = false → w.detail_json.isEmpty = false →
       receive_pubsub_push w = (500, false))
    ∧ receive_pubsub_push
        { up_to_date := false, detail_json := [("company_name", JVal.jstr "ACME LTD")],
          writer_errors := [] } = (500, false)
    ∧ subscriber_normalize_call_raises_type_error = true := by
  refine ⟨?_, rfl, rfl⟩
  intro w h1 h2
  unfold receive_pubsub_push
  rw [h1, h2]
  simp only [Bool.false_eq_true, if_false]
  rfl

/-- C1 witness: a fresh event whose fetch returned a record and whose
writer would even report errors still yields (500, no write reached). -/
theorem receive_pubsub_push_always_retries_witness :
    receive_pubsub_push
      { up_to_date := false, detail_json := [("company_number", JVal.jstr "00000001")],
        writer_errors := ["would-not-matter"] } = (500, false) :=
  receive_pubsub_push_always_retries_on_fresh_event.1
    { up_to_date := false, detail_json := [("company_number", JVal.jstr "00000001")],
      writer_errors := ["would-not-matter"] } rfl rfl

end CompanyHouse
